import Mathlib

/-!
Verification of the mental-health chatbot conversation engine.

This file shallowly embeds the core of the repository in Lean 4:

* `models/rag_chain.py` — crisis detection, LLM-output parsing, the
  per-turn `chat` orchestration and its label gating;
* `utils/data_loader.py` — the `chunk_text` splitter;
* `utils/vector_store.py` — the `add_documents` upsert.

External services (vector search, the two LLM completions, the embedding
call) are modelled as oracle parameters of type `Except Unit _`: the value
each single external call produced during the turn, or `Except.error ()`
for a raised exception.  Real numbers (confidences, similarities) are
modelled as exact rationals.  Strings are manipulated through their
character lists so that every definition is kernel-computable.
-/

namespace MentalHealth

attribute [local semireducible] Rat.add Rat.mul Rat.sub Rat.inv Rat.ofScientific

/-! ### Python string primitives, modelled on character lists -/

/-- Characters Python `str.isspace()` accepts — the set `str.strip()` (and
`float()`) removes: 0x09–0x0D, 0x1C–0x1F, space, NEL 0x85, NBSP 0xA0, Ogham
space 0x1680, the Unicode spaces 0x2000–0x200A, the line and paragraph
separators 0x2028/0x2029, narrow no-break 0x202F, medium mathematical
0x205F, and ideographic space 0x3000. -/
def pyIsSpace (c : Char) : Bool :=
  (9 ≤ c.toNat && c.toNat ≤ 13) || (28 ≤ c.toNat && c.toNat ≤ 31) ||
  c.toNat = 32 || c.toNat = 133 || c.toNat = 160 || c.toNat = 5760 ||
  (8192 ≤ c.toNat && c.toNat ≤ 8202) || c.toNat = 8232 || c.toNat = 8233 ||
  c.toNat = 8239 || c.toNat = 8287 || c.toNat = 12288

/-- Python `str.strip()` on a character list: drop whitespace at both ends. -/
def pyStripL (l : List Char) : List Char :=
  ((l.dropWhile pyIsSpace).reverse.dropWhile pyIsSpace).reverse

/-- Python `str.strip()`. -/
def pyStrip (s : String) : String := ⟨pyStripL s.data⟩

/-- Python `str.lower()` (ASCII case folding, which covers every string the
code compares). -/
def pyLower (s : String) : String := ⟨s.data.map Char.toLower⟩

/-- Python substring test `needle in hay` on character lists. -/
def substrB (needle : List Char) : List Char → Bool
  | [] => needle.isPrefixOf []
  | c :: t => needle.isPrefixOf (c :: t) || substrB needle t

/-- Python `needle in hay` for strings. -/
def strContains (needle hay : String) : Bool := substrB needle.data hay.data

/-- Python `str.startswith`. -/
def pyStartsWith (s pre : String) : Bool := pre.data.isPrefixOf s.data

/-- Python `str.split('\n')` on character lists. -/
def splitNl : List Char → List (List Char)
  | [] => [[]]
  | c :: t =>
    match splitNl t with
    | [] => [[c]]
    | h :: r => if c = '\n' then [] :: h :: r else (c :: h) :: r

/-- Python `str.split('\n')`. -/
def pySplitNl (s : String) : List String := (splitNl s.data).map (fun l => ⟨l⟩)

/-- One fuel-indexed pass of Python `str.replace(pat, repl)` (all
occurrences, left to right, non-overlapping); `fuel` is instantiated with
the string length, which always suffices since every step consumes at
least one character. -/
def replaceLAux (pat repl : List Char) : Nat → List Char → List Char
  | 0, s => s
  | _ + 1, [] => []
  | fuel + 1, c :: t =>
    if pat.isPrefixOf (c :: t) && !pat.isEmpty then
      repl ++ replaceLAux pat repl fuel ((c :: t).drop pat.length)
    else
      c :: replaceLAux pat repl fuel t

/-- Python `str.replace(pat, repl)` for a non-empty pattern. -/
def pyReplace (s pat repl : String) : String :=
  ⟨replaceLAux pat.data repl.data s.data.length s.data⟩

/-- Digit list to natural number. -/
def digitsToNat (ds : List Char) : Nat :=
  ds.foldl (fun a c => a * 10 + (c.toNat - 48)) 0

/-- Exponent part of a Python float literal: optional sign then digits. -/
def pyFloatExp? (cs : List Char) : Option ℤ :=
  let natExp : List Char → Option ℤ := fun r =>
    if r ≠ [] ∧ r.all Char.isDigit then some (digitsToNat r : ℤ) else none
  match cs with
  | '+' :: r => natExp r
  | '-' :: r => (natExp r).map Neg.neg
  | r => natExp r

/-- Unsigned part of a Python float literal: digits with optional
fractional part and optional decimal exponent. -/
def pyFloatUnsigned? (cs : List Char) : Option ℚ :=
  let intPart := cs.takeWhile Char.isDigit
  let rest := cs.dropWhile Char.isDigit
  match rest with
  | [] => if intPart = [] then none else some (digitsToNat intPart : ℚ)
  | '.' :: rest2 =>
    let fracPart := rest2.takeWhile Char.isDigit
    let rest3 := rest2.dropWhile Char.isDigit
    if intPart = [] ∧ fracPart = [] then none
    else
      let base : ℚ :=
        (digitsToNat intPart : ℚ) + (digitsToNat fracPart : ℚ) / (10 ^ fracPart.length)
      match rest3 with
      | [] => some base
      | e :: rest4 =>
        if e = 'e' ∨ e = 'E' then (pyFloatExp? rest4).map (fun k => base * (10 : ℚ) ^ k)
        else none
  | e :: rest2 =>
    if e = 'e' ∨ e = 'E' then
      if intPart = [] then none
      else (pyFloatExp? rest2).map (fun k => (digitsToNat intPart : ℚ) * (10 : ℚ) ^ k)
    else none

/-- Python `float(s)` on finite decimal literals: surrounding whitespace,
optional sign, digits with optional fraction and exponent.  Inputs Python
would map to `inf`/`nan` (or reject) are `none`, which the caller turns
into its parse-failure default. -/
def pyFloat? (s : String) : Option ℚ :=
  match pyStripL s.data with
  | '+' :: r => pyFloatUnsigned? r
  | '-' :: r => (pyFloatUnsigned? r).map Neg.neg
  | r => pyFloatUnsigned? r

/-- Python `int(q)` for the exact rational model: truncation toward zero. -/
def pyInt (q : ℚ) : ℤ := q.num / (q.den : ℤ)

/-! ### rag_chain.py — data model -/

/-- `ChatMessage` dataclass. -/
structure ChatMessage where
  role : String
  content : String
deriving DecidableEq

/-- One search hit as consumed by `chat` (`content` and the metadata keys
`source` / `mental_health_status`; the `id` and `similarity` entries of the
search-result dict are never read by the chain). -/
structure RetrievedDoc where
  content : String
  metadata : List (String × String)
deriving DecidableEq

/-- `RAGResponse` dataclass.  `chat` always assigns `classification` a
string, so the field is modelled as `String`. -/
structure RAGResponse where
  answer : String
  classification : String
  confidence : ℚ
  retrieved_context : List RetrievedDoc
  is_crisis : Bool
  status_label : Option String
  show_label : Bool
  message_count : Nat
deriving DecidableEq

/-- `CONFIDENCE_THRESHOLD = 0.65`. -/
def CONFIDENCE_THRESHOLD : ℚ := 65 / 100

/-- `MIN_MESSAGES_FOR_LABEL = 3`. -/
def MIN_MESSAGES_FOR_LABEL : Nat := 3

/-- `self.crisis_keywords`. -/
def crisis_keywords : List String :=
  ["suicide", "kill myself", "end my life", "want to die",
   "self-harm", "hurt myself", "cutting", "overdose",
   "no reason to live", "better off dead", "ending it all",
   "bunuh diri", "mau mati", "ingin mati", "tidak ingin hidup",
   "menyakiti diri", "mengakhiri hidup"]

/-- `_check_crisis`: case-insensitive substring match against the keyword
list. -/
def check_crisis (text : String) : Bool :=
  let text_lower := pyLower text
  crisis_keywords.any (fun keyword => strContains keyword text_lower)

/-- `_retrieve_context`: the search call's outcome, with an exception
recovered as the empty list. -/
def retrieve_context (search_result : Except Unit (List RetrievedDoc)) : List RetrievedDoc :=
  match search_result with
  | Except.ok results => results
  | Except.error _ => []

/-- Python `dict.get(key, default)` over the metadata mapping. -/
def metaGet (m : List (String × String)) (key dflt : String) : String :=
  match m.find? (fun p => p.1 == key) with
  | some p => p.2
  | none => dflt

/-- `_format_context`: numbered reference lines with source/status
metadata inline. -/
def format_context (retrieved_docs : List RetrievedDoc) : String :=
  if retrieved_docs = [] then ""
  else
    let parts := retrieved_docs.enum.map (fun p =>
      let i := p.1 + 1
      let content := p.2.content
      let source := metaGet p.2.metadata "source" "unknown"
      let status := metaGet p.2.metadata "mental_health_status" ""
      if status ≠ "" then
        "[" ++ toString i ++ "] (" ++ source ++ " - " ++ status ++ ") " ++ content
      else
        "[" ++ toString i ++ "] (" ++ source ++ ") " ++ content)
    String.intercalate "\n" parts

/-- `valid_classes` inside `_analyze_mental_state`. -/
def valid_classes : List String :=
  ["Anxiety", "Depression", "Stress", "Bipolar", "Personality Disorder", "Suicidal", "Normal"]

/-- One line of the analyzer's parse loop: a `CLASSIFICATION:` line updates
the class via case-insensitive substring match against `valid_classes`
(first match wins, no match keeps the previous value); a `CONFIDENCE:`
line parses a float clamped to `[0, 1]`, with `0.5` on parse failure. -/
def analyze_step (acc : String × ℚ) (line : String) : String × ℚ :=
  if pyStartsWith line "CLASSIFICATION:" then
    let raw_class := pyStrip (pyReplace line "CLASSIFICATION:" "")
    match valid_classes.find? (fun vc => strContains (pyLower vc) (pyLower raw_class)) with
    | some vc => (vc, acc.2)
    | none => acc
  else if pyStartsWith line "CONFIDENCE:" then
    let conf_str := pyStrip (pyReplace line "CONFIDENCE:" "")
    match pyFloat? conf_str with
    | some x => (acc.1, max 0 (min 1 x))
    | none => (acc.1, 1 / 2)
  else acc

/-- The parsing suffix of `_analyze_mental_state`: strip the raw LLM text,
split into lines, fold the tagged-line parser over them starting from the
defaults `("Normal", 0.5)`. -/
def analyze_parse (raw : String) : String × ℚ :=
  (pySplitNl (pyStrip raw)).foldl analyze_step ("Normal", 1 / 2)

/-- `_analyze_mental_state`: the classification LLM call's outcome fed to
the parser, with a hard call failure recovered as `("Normal", 0.3)`.  The
history/message/context arguments only shape the prompt sent to the
external model, which the oracle already accounts for. -/
def analyze_mental_state (chat_history : List ChatMessage) (current_message : String)
    (context : String) (llm_result : Except Unit String) : String × ℚ :=
  match llm_result with
  | Except.ok raw => analyze_parse raw
  | Except.error _ => ("Normal", 3 / 10)

/-- The fixed fallback reply of `_generate_response` (the source file
stores the trailing emoji as the four mojibake characters U+00F0 U+0178
U+02DC U+0160). -/
def fallback_text : String :=
  "I\x27m here for you. Want to tell me what\x27s on your mind? ðŸ˜Š"

/-- `_generate_response`: the completion LLM call's outcome, with a call
failure recovered as the fixed fallback reply. -/
def generate_response (user_message : String) (context : String)
    (chat_history : List ChatMessage) (is_crisis : Bool)
    (llm_result : Except Unit String) : String :=
  match llm_result with
  | Except.ok text => text
  | Except.error _ => fallback_text

/-- `get_crisis_response` (verbatim, including the `...ceritanya no
darurat...` placeholder where the hotline numbers were meant to go; the
leading symbol is the mojibake U+00F0 U+0178 U+2020 U+02DC). -/
def get_crisis_response : String :=
  "I\x27m really concerned about what you\x27ve shared. You matter, and help is available.\n\nðŸ†˜ Please reach out now:\n...ceritanya no darurat...\n\nI\x27m here with you, but please also contact one of these resources. You don\x27t have to go through this alone."

/-- `MentalHealthRAGChain.chat`: the per-turn orchestration.  The three
oracle arguments are the outcomes of the turn's three external calls —
vector search, the classification completion, and the reply completion. -/
def chat (user_message : String) (chat_history : List ChatMessage)
    (search_result : Except Unit (List RetrievedDoc))
    (classify_result : Except Unit String)
    (generate_result : Except Unit String) : RAGResponse :=
  let user_msg_count := (chat_history.filter (fun m => m.role == "user")).length + 1
  let is_crisis := check_crisis user_message
  let retrieved := retrieve_context search_result
  let context := format_context retrieved
  let analyzed := analyze_mental_state chat_history user_message context classify_result
  let classification := if is_crisis then "Suicidal" else analyzed.1
  let confidence : ℚ := if is_crisis then 1 else analyzed.2
  let show_label :=
    (decide (user_msg_count ≥ MIN_MESSAGES_FOR_LABEL) &&
     decide (confidence ≥ CONFIDENCE_THRESHOLD) &&
     (classification != "Normal")) || is_crisis
  let status_label :=
    if show_label then
      some (classification ++ " (" ++ toString (pyInt (confidence * 100)) ++ "%)")
    else none
  let answer := generate_response user_message context chat_history is_crisis generate_result
  { answer := answer
    classification := classification
    confidence := confidence
    retrieved_context := retrieved
    is_crisis := is_crisis
    status_label := status_label
    show_label := show_label
    message_count := user_msg_count }

/-! ### data_loader.py — chunk_text -/

/-- Normalise one Python slice index: negative indices count from the end,
then the result is clamped to `[0, n]`. -/
def pySliceIdx (n i : ℤ) : ℤ := if i < 0 then max (n + i) 0 else min i n

/-- Python slice `l[a:b]` for integer indices. -/
def pySlice (l : List Char) (a b : ℤ) : List Char :=
  let n : ℤ := l.length
  (l.take (pySliceIdx n b).toNat).drop (pySliceIdx n a).toNat

/-- Python `hay.rfind(needle)`: the largest index at which `needle`
occurs, `-1` if it never does. -/
def pyRfind (needle hay : List Char) : ℤ :=
  let hits := (List.range (hay.length + 1)).filter (fun i => needle.isPrefixOf (hay.drop i))
  match hits.getLast? with
  | some i => (i : ℤ)
  | none => -1

/-- The separators `chunk_text` tries, in priority order. -/
def chunk_seps : List String := [". ", "! ", "? ", "\n"]

/-- Boundary choice of one `chunk_text` iteration: `end = start +
chunk_size`, and when that falls short of the text's end, the first
separator found in the window moves `end` to just past its last
occurrence. -/
def chunk_step_end (text : List Char) (start : ℤ) (chunk_size : Nat) : ℤ :=
  let end0 := start + (chunk_size : ℤ)
  if end0 < (text.length : ℤ) then
    match chunk_seps.findSome? (fun sep =>
        let last_sep := pyRfind sep.data (pySlice text start end0)
        if last_sep ≠ -1 then some (start + last_sep + (sep.length : ℤ)) else none) with
    | some e => e
    | none => end0
  else end0

/-- The `while start < len(text)` loop of `chunk_text`, indexed by fuel so
that non-termination of the source loop is observable as `none` for every
fuel. -/
def chunk_loop (text : List Char) (chunk_size overlap : Nat) :
    Nat → ℤ → List (List Char) → Option (List (List Char))
  | 0, _, _ => none
  | fuel + 1, start, chunks =>
    if start < (text.length : ℤ) then
      let e := chunk_step_end text start chunk_size
      chunk_loop text chunk_size overlap fuel (e - (overlap : ℤ))
        (chunks ++ [pyStripL (pySlice text start e)])
    else
      some chunks

/-- `chunk_text`: texts no longer than `chunk_size` are returned whole;
otherwise the windowed loop runs (with the given fuel bounding its
iteration count). -/
def chunk_text (fuel : Nat) (text : String) (chunk_size overlap : Nat) : Option (List String) :=
  if text.length ≤ chunk_size then some [text]
  else (chunk_loop text.data chunk_size overlap fuel 0 []).map (fun cs => cs.map (fun l => ⟨l⟩))

/-- The spec's reconstruction operation on a chunk sequence: keep the
first chunk whole and drop the first `overlap` characters of every later
chunk, then concatenate. -/
def reconstruct (overlap : Nat) (chunks : List String) : String :=
  match chunks with
  | [] => ""
  | c :: cs => ⟨c.data ++ (cs.map (fun s => s.data.drop overlap)).flatten⟩

/-- List-level form of `reconstruct`, used by the loop invariants. -/
def firstWholeL (overlap : Nat) : List (List Char) → List Char
  | [] => []
  | c :: cs => c ++ (cs.map (List.drop overlap)).flatten

/-! ### vector_store.py — add_documents -/

/-- `Document` dataclass from `data_loader.py` (metadata modelled as an
association list). -/
structure Document where
  content : String
  metadata : List (String × String)
  doc_id : String
deriving DecidableEq

/-- The identifier `add_documents` uses for a document: `doc.doc_id or
self._generate_doc_id(...)`, i.e. the supplied id unless it is falsy
(empty), else the content+metadata hash.  The md5 hash itself is the
uninterpreted function `genId`. -/
def doc_identifier (genId : String → List (String × String) → String) (doc : Document) :
    String :=
  if doc.doc_id = "" then genId doc.content doc.metadata else doc.doc_id

/-- The batch loop of `add_documents` over slices of 100 documents.  The
store is the list of ids the (black-box, reliable) collection holds;
`embed` is the outcome of the `_get_embeddings` call for a batch, whose
exception aborts only that batch.  `fuel` is instantiated with the
document count, which always suffices since every round consumes a
non-empty batch.  Returns the updated store and the added count. -/
def add_documents_batches (genId : String → List (String × String) → String)
    (embed : List String → Except Unit Unit) :
    Nat → List String → List Document → List String × Nat
  | 0, store, _ => (store, 0)
  | _ + 1, store, [] => (store, 0)
  | fuel + 1, store, d :: ds =>
    let docs := d :: ds
    let batch := docs.take 100
    let rest := docs.drop 100
    let ids := batch.map (doc_identifier genId)
    let existing := ids.filter (fun i => store.contains i)
    let newDocs := batch.filter (fun dm => !(existing.contains (doc_identifier genId dm)))
    if newDocs.isEmpty then
      add_documents_batches genId embed fuel store rest
    else
      match embed (newDocs.map (fun dm => dm.content)) with
      | Except.error _ => add_documents_batches genId embed fuel store rest
      | Except.ok _ =>
        let newIds := newDocs.map (doc_identifier genId)
        let res := add_documents_batches genId embed fuel (store ++ newIds) rest
        (res.1, newIds.length + res.2)

/-- `VectorStore.add_documents`: empty input is a no-op returning 0,
otherwise the batch loop runs. -/
def add_documents (genId : String → List (String × String) → String)
    (embed : List String → Except Unit Unit)
    (store : List String) (documents : List Document) : List String × Nat :=
  if documents.isEmpty then (store, 0)
  else add_documents_batches genId embed documents.length store documents

/-- An embedding backend that always succeeds (used to instantiate
theorems about successful ingestion). -/
def embed_ok : List String → Except Unit Unit := fun _ => Except.ok ()

/-! ### Helper lemmas -/

theorem isSome_ite (b : Bool) (s : String) : (if b then some s else none).isSome = b := by
  cases b <;> rfl

theorem analyze_step_fst_mem (acc : String × ℚ) (line : String) (h : acc.1 ∈ valid_classes) :
    (analyze_step acc line).1 ∈ valid_classes := by
  unfold analyze_step
  by_cases h1 : pyStartsWith line "CLASSIFICATION:" = true
  · simp only [h1, if_true]
    rcases hf : valid_classes.find?
        (fun vc => strContains (pyLower vc)
          (pyLower (pyStrip (pyReplace line "CLASSIFICATION:" "")))) with _ | vc
    · simpa [hf] using h
    · simpa [hf] using List.mem_of_find?_eq_some hf
  · by_cases h2 : pyStartsWith line "CONFIDENCE:" = true
    · rcases hp : pyFloat? (pyStrip (pyReplace line "CONFIDENCE:" "")) with _ | x <;>
        simpa [h1, h2, hp] using h
    · simpa [h1, h2] using h

theorem analyze_foldl_fst_mem (ls : List String) (acc : String × ℚ)
    (h : acc.1 ∈ valid_classes) : (ls.foldl analyze_step acc).1 ∈ valid_classes := by
  induction ls generalizing acc with
  | nil => exact h
  | cons l t ih => exact ih _ (analyze_step_fst_mem _ _ h)

theorem analyze_parse_fst_mem (raw : String) : (analyze_parse raw).1 ∈ valid_classes :=
  analyze_foldl_fst_mem _ _ (by decide)

/-! ### Claims about the conversation orchestrator -/

/-- C1: whenever the crisis detector fires on the user message, the
`RAGResponse` returned by `chat` carries classification `"Suicidal"` and
confidence `1.0`, overriding whatever the analyzer produced for the
turn (any history, any outcomes of the three external calls). -/
theorem chat_crisis_override (u : String) (hist : List ChatMessage)
    (sr : Except Unit (List RetrievedDoc)) (cr gr : Except Unit String)
    (h : check_crisis u = true) :
    (chat u hist sr cr gr).classification = "Suicidal" ∧
      (chat u hist sr cr gr).confidence = 1 := by
  simp [chat, h]

theorem chat_crisis_override_witness :
    check_crisis "I want to end my life" = true ∧
      ((chat "I want to end my life" [] (Except.error ()) (Except.error ())
          (Except.error ())).classification = "Suicidal" ∧
        (chat "I want to end my life" [] (Except.error ()) (Except.error ())
          (Except.error ())).confidence = 1) :=
  ⟨by decide, chat_crisis_override "I want to end my life" [] (Except.error ())
    (Except.error ()) (Except.error ()) (by decide)⟩

/-- C2: on the crisis message "I want to end my life" with every external
call failing, the crisis flag is set but the answer is the generic
fallback reply, which contains no crisis-resource text ("988" does not
occur in it), and even the unused `get_crisis_response` text contains no
"988" — the code contradicts the spec's correctness-critical fallback
path. -/
theorem chat_crisis_fallback_lacks_resources :
    (chat "I want to end my life" [] (Except.error ()) (Except.error ())
        (Except.error ())).is_crisis = true ∧
      (chat "I want to end my life" [] (Except.error ()) (Except.error ())
        (Except.error ())).answer = fallback_text ∧
      strContains "988" (chat "I want to end my life" [] (Except.error ()) (Except.error ())
        (Except.error ())).answer = false ∧
      strContains "988" get_crisis_response = false :=
  ⟨by decide, rfl, by decide, by decide⟩

/-- C3: `show_label` equals `(userMessageCount ≥ 3 ∧ confidence ≥ 0.65 ∧
classification ≠ "Normal") ∨ crisis`, where the count is the number of
user-role messages in the caller-supplied history plus one and
classification/confidence are the post-crisis-override values carried in
the response. -/
theorem chat_show_label_spec (u : String) (hist : List ChatMessage)
    (sr : Except Unit (List RetrievedDoc)) (cr gr : Except Unit String) :
    (chat u hist sr cr gr).show_label =
      ((decide ((chat u hist sr cr gr).message_count ≥ MIN_MESSAGES_FOR_LABEL) &&
        decide ((chat u hist sr cr gr).confidence ≥ CONFIDENCE_THRESHOLD) &&
        ((chat u hist sr cr gr).classification != "Normal")) ||
        (chat u hist sr cr gr).is_crisis) ∧
      (chat u hist sr cr gr).message_count =
        (hist.filter (fun m => m.role == "user")).length + 1 :=
  ⟨rfl, rfl⟩

/-- C4: for every outcome of the classification call — including arbitrary
malformed free text — the classification carried in the response is one of
the seven valid labels; raw model output is never returned. -/
theorem chat_classification_closed (u : String) (hist : List ChatMessage)
    (sr : Except Unit (List RetrievedDoc)) (cr gr : Except Unit String) :
    (chat u hist sr cr gr).classification ∈ valid_classes := by
  by_cases h : check_crisis u = true
  · simp only [chat, h, if_true]
    decide
  · cases cr with
    | ok raw =>
      simpa [chat, h, analyze_mental_state] using analyze_parse_fst_mem raw
    | error e =>
      simp only [chat, h, analyze_mental_state, if_false, Bool.false_eq_true]
      decide

/-- C5: a transient external-service failure never surfaces from `chat`:
the turn completes with a total `RAGResponse`, a failed retrieval yields
the empty context, a failed classification call yields `("Normal", 0.3)`,
and a failed generation call yields the fixed fallback reply. -/
theorem chat_failure_defaults (u ctx : String) (hist : List ChatMessage) (b : Bool) :
    analyze_mental_state hist u ctx (Except.error ()) = ("Normal", 3 / 10) ∧
      retrieve_context (Except.error ()) = [] ∧
      generate_response u ctx hist b (Except.error ()) = fallback_text ∧
      (chat u hist (Except.error ()) (Except.error ()) (Except.error ())).retrieved_context
        = [] ∧
      (chat u hist (Except.error ()) (Except.error ()) (Except.error ())).answer
        = fallback_text :=
  ⟨rfl, rfl, rfl, rfl, rfl⟩

/-- C6 (counterexample): a chat call with `show_label` true whose
`status_label` is not `"<classification> (<round(confidence*100)>%)"`:
with analyzer output confidence 0.666 the label reads "Anxiety (66%)"
(Python `int()` truncates) while rounding would give 67. -/
theorem chat_status_label_round_cex :
    (chat "hi" [⟨"user", "a"⟩, ⟨"assistant", "b"⟩, ⟨"user", "c"⟩]
        (Except.error ()) (Except.ok "CLASSIFICATION: Anxiety\nCONFIDENCE: 0.666")
        (Except.error ())).show_label = true ∧
      (chat "hi" [⟨"user", "a"⟩, ⟨"assistant", "b"⟩, ⟨"user", "c"⟩]
        (Except.error ()) (Except.ok "CLASSIFICATION: Anxiety\nCONFIDENCE: 0.666")
        (Except.error ())).status_label ≠
      some ((chat "hi" [⟨"user", "a"⟩, ⟨"assistant", "b"⟩, ⟨"user", "c"⟩]
          (Except.error ()) (Except.ok "CLASSIFICATION: Anxiety\nCONFIDENCE: 0.666")
          (Except.error ())).classification ++ " (" ++
        toString (round ((chat "hi" [⟨"user", "a"⟩, ⟨"assistant", "b"⟩, ⟨"user", "c"⟩]
          (Except.error ()) (Except.ok "CLASSIFICATION: Anxiety\nCONFIDENCE: 0.666")
          (Except.error ())).confidence * 100)) ++ "%)") := by
  constructor
  · decide
  · decide

/-- C6 (amended): whenever `show_label` is true, `status_label` is the
classification followed by the truncated percentage
`int(confidence * 100)` in parentheses (truncation toward zero, not
rounding). -/
theorem chat_status_label_trunc (u : String) (hist : List ChatMessage)
    (sr : Except Unit (List RetrievedDoc)) (cr gr : Except Unit String)
    (h : (chat u hist sr cr gr).show_label = true) :
    (chat u hist sr cr gr).status_label =
      some ((chat u hist sr cr gr).classification ++ " (" ++
        toString (pyInt ((chat u hist sr cr gr).confidence * 100)) ++ "%)") := by
  simp only [chat] at h ⊢
  simp [h]

theorem chat_status_label_trunc_witness :
    (chat "suicide" [] (Except.error ()) (Except.error ())
        (Except.error ())).show_label = true ∧
      (chat "suicide" [] (Except.error ()) (Except.error ())
        (Except.error ())).status_label =
      some ((chat "suicide" [] (Except.error ()) (Except.error ())
          (Except.error ())).classification ++ " (" ++
        toString (pyInt ((chat "suicide" [] (Except.error ()) (Except.error ())
          (Except.error ())).confidence * 100)) ++ "%)") :=
  ⟨by decide, chat_status_label_trunc "suicide" [] (Except.error ()) (Except.error ())
    (Except.error ()) (by decide)⟩

/-- C10: `status_label` is populated exactly when `show_label` is true, so
an internally computed but ungated classification never leaks through the
status-label field. -/
theorem chat_status_label_iff_show (u : String) (hist : List ChatMessage)
    (sr : Except Unit (List RetrievedDoc)) (cr gr : Except Unit String) :
    (chat u hist sr cr gr).status_label.isSome = (chat u hist sr cr gr).show_label := by
  simp only [chat]
  apply isSome_ite

/-! ### Claims about the chunker -/

theorem chunk_loop_aaa_step (fuel : Nat) (acc : List (List Char)) :
    chunk_loop "aaa".data 2 2 (fuel + 1) 0 acc =
      chunk_loop "aaa".data 2 2 fuel 0 (acc ++ [pyStripL (pySlice "aaa".data 0 2)]) := rfl

theorem chunk_loop_aaa_none (fuel : Nat) :
    ∀ acc, chunk_loop "aaa".data 2 2 fuel 0 acc = none := by
  induction fuel with
  | zero => intro acc; rfl
  | succ m ih =>
    intro acc
    rw [chunk_loop_aaa_step]
    exact ih _

/-- C8: the chunker's loop does not always make forward progress.  On the
text "aaa" with `chunk_size = 2` and `overlap = 2` the window never
contains a separator, so each iteration sets `start = end - overlap = 0`
again: the `while` loop never terminates, which the fuel-indexed model
witnesses by returning `none` for every fuel bound. -/
theorem chunk_text_stalls (fuel : Nat) : chunk_text fuel "aaa" 2 2 = none := by
  have h3 : ¬ ("aaa".length ≤ 2) := by decide
  unfold chunk_text
  rw [if_neg h3, chunk_loop_aaa_none]
  rfl

/-- C9 (counterexample): on "ab\ncdef" with `maxSize = 4` and
`overlap = 0` the chunker terminates with chunks ["ab", "cdef"] — the
newline separator ends the first window and the per-chunk `strip()`
discards it — so concatenating the chunks (overlap 0) yields "abcdef",
not the original text. -/
theorem chunk_text_strip_cex :
    chunk_text 8 "ab\ncdef" 4 0 = some ["ab", "cdef"] ∧
      reconstruct 0 ["ab", "cdef"] ≠ "ab\ncdef" := by
  constructor
  · decide
  · decide

theorem dropWhile_eq_self_of_false {p : Char → Bool} {l : List Char}
    (h : ∀ c ∈ l, p c = false) : l.dropWhile p = l := by
  cases l with
  | nil => rfl
  | cons a t => simp [List.dropWhile_cons, h a (List.mem_cons_self a t)]

theorem pyStripL_eq_self {l : List Char} (h : ∀ c ∈ l, pyIsSpace c = false) :
    pyStripL l = l := by
  unfold pyStripL
  rw [dropWhile_eq_self_of_false h,
    dropWhile_eq_self_of_false (fun c hc => h c (List.mem_reverse.1 hc)),
    List.reverse_reverse]

theorem mem_of_isPrefixOf_mem {l₁ l₂ : List Char} (h : l₁.isPrefixOf l₂ = true)
    {c : Char} (hc : c ∈ l₁) : c ∈ l₂ := by
  induction l₁ generalizing l₂ with
  | nil => cases hc
  | cons a t ih =>
    cases l₂ with
    | nil => simp [List.isPrefixOf] at h
    | cons b u =>
      simp only [List.isPrefixOf, Bool.and_eq_true, beq_iff_eq] at h
      rcases List.mem_cons.1 hc with rfl | hc2
      · exact List.mem_cons.2 (Or.inl h.1)
      · exact List.mem_cons.2 (Or.inr (ih h.2 hc2))

theorem isPrefixOf_false_of_ws_free {w : List Char}
    (hw : ∀ c ∈ w, pyIsSpace c = false) {sep : List Char} {c : Char}
    (hcsep : c ∈ sep) (hcs : pyIsSpace c = true) (i : Nat) :
    sep.isPrefixOf (w.drop i) = false := by
  cases hp : sep.isPrefixOf (w.drop i) with
  | false => rfl
  | true =>
    have hc2 : c ∈ w := List.drop_subset i w (mem_of_isPrefixOf_mem hp hcsep)
    rw [hw c hc2] at hcs
    cases hcs

theorem pyRfind_eq_neg_one {sep w : List Char}
    (h : ∀ i, sep.isPrefixOf (w.drop i) = false) : pyRfind sep w = -1 := by
  unfold pyRfind
  have hnil : (List.range (w.length + 1)).filter (fun i => sep.isPrefixOf (w.drop i)) = [] := by
    rw [List.filter_eq_nil_iff]
    intro a _
    simp [h a]
  rw [hnil]
  rfl

theorem chunk_step_end_ws {d : List Char} (hw : ∀ c ∈ d, pyIsSpace c = false)
    (s : ℤ) (cs : Nat) : chunk_step_end d s cs = s + cs := by
  have hwin : ∀ c ∈ pySlice d s (s + (cs : ℤ)), pyIsSpace c = false := by
    intro c hc
    refine hw c ?_
    unfold pySlice at hc
    exact List.take_subset _ _ (List.drop_subset _ _ hc)
  have h1 : pyRfind (". ").data (pySlice d s (s + (cs : ℤ))) = -1 :=
    pyRfind_eq_neg_one (isPrefixOf_false_of_ws_free hwin
      (show ' ' ∈ (". ").data by decide) (by decide))
  have h2 : pyRfind ("! ").data (pySlice d s (s + (cs : ℤ))) = -1 :=
    pyRfind_eq_neg_one (isPrefixOf_false_of_ws_free hwin
      (show ' ' ∈ ("! ").data by decide) (by decide))
  have h3 : pyRfind ("? ").data (pySlice d s (s + (cs : ℤ))) = -1 :=
    pyRfind_eq_neg_one (isPrefixOf_false_of_ws_free hwin
      (show ' ' ∈ ("? ").data by decide) (by decide))
  have h4 : pyRfind ("\n").data (pySlice d s (s + (cs : ℤ))) = -1 :=
    pyRfind_eq_neg_one (isPrefixOf_false_of_ws_free hwin
      (show '\n' ∈ ("\n").data by decide) (by decide))
  unfold chunk_step_end
  by_cases hend : s + (cs : ℤ) < (d.length : ℤ)
  · simp [hend, chunk_seps, List.findSome?, h1, h2, h3, h4]
  · simp [hend]

theorem pySlice_nat (l : List Char) (a b : Nat) (ha : a ≤ l.length) :
    pySlice l (a : ℤ) (b : ℤ) = (l.take (min b l.length)).drop a := by
  have h1 : ¬ ((a : ℤ) < 0) := by omega
  have h2 : ¬ ((b : ℤ) < 0) := by omega
  simp only [pySlice, pySliceIdx, h1, h2, if_false, inf_eq_min, sup_eq_max]
  have e1 : (min (b : ℤ) (l.length : ℤ)).toNat = min b l.length := by omega
  have e2 : (min (a : ℤ) (l.length : ℤ)).toNat = a := by omega
  rw [e1, e2]

theorem drop_take_append_drop (d : List Char) (a b : Nat) :
    (d.drop a).take (b - a) ++ d.drop b = d.drop (min a b) := by
  rcases le_or_lt a b with hab | hab
  · rw [Nat.min_eq_left hab]
    conv_rhs => rw [← List.take_append_drop (b - a) (d.drop a)]
    congr 1
    rw [List.drop_drop]
    congr 1
    omega
  · rw [Nat.min_eq_right (Nat.le_of_lt hab), Nat.sub_eq_zero_of_le (Nat.le_of_lt hab),
      List.take_zero, List.nil_append]

theorem drop_min_length (d : List Char) (x : Nat) :
    d.drop (min x d.length) = d.drop x := by
  rcases le_or_lt x d.length with h | h
  · rw [Nat.min_eq_left h]
  · rw [Nat.min_eq_right (Nat.le_of_lt h), List.drop_length,
      List.drop_eq_nil_of_le (Nat.le_of_lt h)]

theorem chunk_loop_ws_free (d : List Char) (cs ov : Nat)
    (hw : ∀ c ∈ d, pyIsSpace c = false) (hov : ov < cs) :
    ∀ (fuel s : Nat) (acc : List (List Char)), d.length - s < fuel →
      ∃ chunks : List (List Char),
        chunk_loop d cs ov fuel (s : ℤ) acc = some (acc ++ chunks) ∧
          (chunks.map (List.drop ov)).flatten = d.drop (s + ov) ∧
          firstWholeL ov chunks = d.drop s ∧
          ∀ c ∈ chunks, c.length ≤ cs := by
  intro fuel
  induction fuel with
  | zero => intro s acc h; omega
  | succ m ih =>
    intro s acc h
    by_cases hs : s < d.length
    · have hsZ : ((s : ℤ) < (d.length : ℤ)) := by exact_mod_cast hs
      have hcast : (s : ℤ) + (cs : ℤ) = ((s + cs : Nat) : ℤ) := by push_cast; ring
      have hcast2 : (s : ℤ) + (cs : ℤ) - (ov : ℤ) = ((s + cs - ov : Nat) : ℤ) := by
        push_cast [Nat.cast_sub (by omega : ov ≤ s + cs)]; ring
      have hslice : pySlice d (s : ℤ) ((s : ℤ) + (cs : ℤ)) =
          (d.take (min (s + cs) d.length)).drop s := by
        rw [hcast, pySlice_nat d s (s + cs) (Nat.le_of_lt hs)]
      have hsliceT : pySlice d (s : ℤ) ((s : ℤ) + (cs : ℤ)) =
          (d.drop s).take (min (s + cs) d.length - s) := by
        rw [hslice, List.drop_take]
      have hsubset : ∀ c ∈ pySlice d (s : ℤ) ((s : ℤ) + (cs : ℤ)), pyIsSpace c = false := by
        intro c hc
        refine hw c ?_
        unfold pySlice at hc
        exact List.take_subset _ _ (List.drop_subset _ _ hc)
      have hstep : chunk_loop d cs ov (m + 1) (s : ℤ) acc =
          chunk_loop d cs ov m ((s + cs - ov : Nat) : ℤ)
            (acc ++ [pySlice d (s : ℤ) ((s : ℤ) + (cs : ℤ))]) := by
        simp only [chunk_loop]
        rw [if_pos hsZ, chunk_step_end_ws hw, pyStripL_eq_self hsubset, hcast2]
      obtain ⟨chunks', hloop, hflat, hfirst, hlens⟩ :=
        ih (s + cs - ov) (acc ++ [pySlice d (s : ℤ) ((s : ℤ) + (cs : ℤ))]) (by omega)
      refine ⟨pySlice d (s : ℤ) ((s : ℤ) + (cs : ℤ)) :: chunks', ?_, ?_, ?_, ?_⟩
      · rw [hstep, hloop, List.append_assoc]
        rfl
      · have hov2 : s + cs - ov + ov = s + cs := by omega
        rw [hov2] at hflat
        simp only [List.map_cons, List.flatten_cons, hflat]
        rw [hsliceT]
        rw [List.drop_take, List.drop_drop]
        rw [show List.drop (s + cs) d = List.drop (min (s + cs) d.length) d from
          (drop_min_length d (s + cs)).symm]
        have e3 : min (s + cs) d.length - s - ov = min (s + cs) d.length - (ov + s) := by omega
        have e4 : ov + s = s + ov := by omega
        rw [e3, e4, drop_take_append_drop d (s + ov) (min (s + cs) d.length)]
        have e5 : min (s + ov) (min (s + cs) d.length) = min (s + ov) d.length := by omega
        rw [e5, drop_min_length]
      · have hov2 : s + cs - ov + ov = s + cs := by omega
        rw [hov2] at hflat
        simp only [firstWholeL, hflat]
        rw [hsliceT]
        rw [show List.drop (s + cs) d = List.drop (min (s + cs) d.length) d from
          (drop_min_length d (s + cs)).symm]
        have := drop_take_append_drop d s (min (s + cs) d.length)
        rw [Nat.min_eq_left (by omega : s ≤ min (s + cs) d.length)] at this
        exact this
      · intro c hc
        rcases List.mem_cons.1 hc with rfl | hc2
        · rw [hsliceT]
          calc ((d.drop s).take (min (s + cs) d.length - s)).length
              ≤ min (s + cs) d.length - s := List.length_take_le _ _
            _ ≤ cs := by omega
        · exact hlens c hc2
    · refine ⟨[], ?_, ?_, ?_, ?_⟩
      · have hsZ : ¬ ((s : ℤ) < (d.length : ℤ)) := by exact_mod_cast hs
        simp only [chunk_loop]
        rw [if_neg hsZ, List.append_nil]
      · simp [List.drop_eq_nil_of_le (by omega : d.length ≤ s + ov)]
      · simp [firstWholeL, List.drop_eq_nil_of_le (by omega : d.length ≤ s)]
      · intro c hc
        cases hc

/-- C9 (amended): for text longer than `maxSize` that contains no
whitespace — so no separator ever matches and the per-chunk `strip()` is
the identity — and with `overlap < maxSize`, the chunker terminates and
concatenating the chunks after dropping the first `overlap` characters of
every chunk after the first reconstructs the original text; every chunk
has length at most `maxSize`.  (In general the per-chunk `strip()` loses
boundary whitespace, as the counterexample shows.) -/
theorem chunk_text_ws_reconstruct (text : String) (chunk_size overlap : Nat)
    (hws : ∀ c ∈ text.data, pyIsSpace c = false)
    (hlen : chunk_size < text.length)
    (hov : overlap < chunk_size) :
    ∃ chunks : List String,
      chunk_text (text.length + 1) text chunk_size overlap = some chunks ∧
        reconstruct overlap chunks = text ∧
        ∀ chunk ∈ chunks, chunk.length ≤ chunk_size := by
  have hlen2 : text.length = text.data.length := rfl
  obtain ⟨chunksL, hloop, hflat, hfirst, hlens⟩ :=
    chunk_loop_ws_free text.data chunk_size overlap hws hov (text.length + 1) 0 []
      (by omega)
  refine ⟨chunksL.map (fun l => ⟨l⟩), ?_, ?_, ?_⟩
  · unfold chunk_text
    rw [if_neg (by omega)]
    have h0 : ((0 : Nat) : ℤ) = (0 : ℤ) := rfl
    rw [h0] at hloop
    rw [hloop]
    rfl
  · have hne : chunksL ≠ [] := by
      intro h0
      rw [h0] at hfirst
      simp only [firstWholeL, List.drop_zero] at hfirst
      have : text.data.length = 0 := by rw [← hfirst]; rfl
      omega
    obtain ⟨c, cs', rfl⟩ := List.exists_cons_of_ne_nil hne
    simp only [List.map_cons, reconstruct]
    have hmm : ((cs'.map (fun l => (⟨l⟩ : String))).map (fun s => s.data.drop overlap)) =
        cs'.map (List.drop overlap) := by
      rw [List.map_map]
      rfl
    rw [hmm]
    have : (c ++ (cs'.map (List.drop overlap)).flatten) = text.data := by
      have := hfirst
      simp only [firstWholeL, List.drop_zero] at this
      exact this
    rw [this]
  · intro chunk hchunk
    rcases List.mem_map.1 hchunk with ⟨l, hl, rfl⟩
    exact hlens l hl

theorem chunk_text_ws_reconstruct_witness :
    (∀ c ∈ ("abcdef").data, pyIsSpace c = false) ∧
      (∃ chunks : List String,
        chunk_text ("abcdef".length + 1) "abcdef" 4 1 = some chunks ∧
          reconstruct 1 chunks = "abcdef" ∧
          ∀ chunk ∈ chunks, chunk.length ≤ 4) :=
  ⟨by decide, chunk_text_ws_reconstruct "abcdef" 4 1 (by decide) (by decide) (by decide)⟩

/-! ### Claims about the document store -/

theorem add_batches_store_mono (g : String → List (String × String) → String)
    (e : List String → Except Unit Unit) :
    ∀ (fuel : Nat) (docs : List Document) (store : List String) (x : String),
      x ∈ store → x ∈ (add_documents_batches g e fuel store docs).1 := by
  intro fuel
  induction fuel with
  | zero => intro docs store x hx; exact hx
  | succ m ih =>
    intro docs store x hx
    cases docs with
    | nil => exact hx
    | cons d ds =>
      simp only [add_documents_batches]
      split
      · exact ih _ _ _ hx
      · split
        · exact ih _ _ _ hx
        · exact ih _ _ _ (List.mem_append_left _ hx)

theorem add_batches_mem (g : String → List (String × String) → String)
    (e : List String → Except Unit Unit) (hok : ∀ ts, e ts = Except.ok ()) :
    ∀ (fuel : Nat) (docs : List Document) (store : List String),
      docs.length ≤ fuel →
      ∀ dm ∈ docs, doc_identifier g dm ∈ (add_documents_batches g e fuel store docs).1 := by
  intro fuel
  induction fuel with
  | zero =>
    intro docs store hlen dm hdm
    rw [List.length_eq_zero.1 (Nat.le_zero.1 hlen)] at hdm
    cases hdm
  | succ m ih =>
    intro docs store hlen dm hdm
    cases docs with
    | nil => cases hdm
    | cons d ds =>
      have hsplit : dm ∈ (d :: ds).take 100 ∨ dm ∈ (d :: ds).drop 100 :=
        List.mem_append.1 (by rw [List.take_append_drop]; exact hdm)
      have hid : dm ∈ (d :: ds).take 100 →
          doc_identifier g dm ∈ ((d :: ds).take 100).map (doc_identifier g) :=
        fun hb => List.mem_map.2 ⟨dm, hb, rfl⟩
      simp only [add_documents_batches, hok]
      split
      · -- newDocs empty: every batch identifier is already in the store
        rcases hsplit with hb | hrest
        · rename_i hemp
          have hall := List.filter_eq_nil_iff.1 (List.isEmpty_iff.1 hemp) dm hb
          simp only [Bool.not_eq_true', Bool.not_eq_false] at hall
          have hmem : doc_identifier g dm ∈
              (((d :: ds).take 100).map (doc_identifier g)).filter
                (fun i => store.contains i) := by
            rw [← List.elem_iff]
            exact hall
          have hstore : doc_identifier g dm ∈ store := by
            have := List.mem_filter.1 hmem
            rw [← List.elem_iff]
            exact this.2
          exact add_batches_store_mono g e m _ store _ hstore
        · exact ih _ _ (by simp only [List.length_drop, List.length_cons] at *; omega) dm hrest
      · -- embedding succeeded: new identifiers are appended before recursing
        rcases hsplit with hb | hrest
        · by_cases hex : (((((d :: ds).take 100).map (doc_identifier g)).filter
              (fun i => store.contains i)).contains (doc_identifier g dm)) = true
          · have hstore : doc_identifier g dm ∈ store := by
              have := List.mem_filter.1 (List.elem_iff.1 hex)
              rw [← List.elem_iff]
              exact this.2
            exact add_batches_store_mono g e m _ _ _
              (List.mem_append_left _ hstore)
          · have hnew : dm ∈ ((d :: ds).take 100).filter
                (fun dm2 => !(((((d :: ds).take 100).map (doc_identifier g)).filter
                  (fun i => store.contains i)).contains (doc_identifier g dm2))) := by
              rw [List.mem_filter]
              refine ⟨hb, ?_⟩
              have hfalse : (((((d :: ds).take 100).map (doc_identifier g)).filter
                  (fun i => store.contains i)).contains (doc_identifier g dm)) = false :=
                Bool.eq_false_iff.2 hex
              rw [hfalse]
              rfl
            have hnewid : doc_identifier g dm ∈
                (((d :: ds).take 100).filter
                  (fun dm2 => !(((((d :: ds).take 100).map (doc_identifier g)).filter
                    (fun i => store.contains i)).contains
                      (doc_identifier g dm2)))).map (doc_identifier g) :=
              List.mem_map.2 ⟨dm, hnew, rfl⟩
            exact add_batches_store_mono g e m _ _ _ (List.mem_append_right _ hnewid)
        · exact ih _ _ (by simp only [List.length_drop, List.length_cons] at *; omega) dm hrest

theorem add_batches_noop (g : String → List (String × String) → String)
    (e : List String → Except Unit Unit) :
    ∀ (fuel : Nat) (docs : List Document) (store : List String),
      (∀ dm ∈ docs, doc_identifier g dm ∈ store) →
      add_documents_batches g e fuel store docs = (store, 0) := by
  intro fuel
  induction fuel with
  | zero => intro docs store _; rfl
  | succ m ih =>
    intro docs store hall
    cases docs with
    | nil => rfl
    | cons d ds =>
      have hemp : ((d :: ds).take 100).filter
          (fun dm => !(((((d :: ds).take 100).map (doc_identifier g)).filter
            (fun i => store.contains i)).contains (doc_identifier g dm))) = [] := by
        rw [List.filter_eq_nil_iff]
        intro dm hdm
        have hstore : doc_identifier g dm ∈ store :=
          hall dm (List.take_subset _ _ hdm)
        have hidmem : doc_identifier g dm ∈
            ((d :: ds).take 100).map (doc_identifier g) :=
          List.mem_map.2 ⟨dm, hdm, rfl⟩
        have hfil : doc_identifier g dm ∈
            (((d :: ds).take 100).map (doc_identifier g)).filter
              (fun i => store.contains i) := by
          rw [List.mem_filter]
          exact ⟨hidmem, List.elem_iff.2 hstore⟩
        have hcontains : (((((d :: ds).take 100).map (doc_identifier g)).filter
            (fun i => store.contains i)).contains (doc_identifier g dm)) = true :=
          List.elem_iff.2 hfil
        rw [hcontains]
        intro hfalse
        cases hfalse
      simp only [add_documents_batches, hemp, List.isEmpty_nil, if_true]
      exact ih _ _ (fun dm hdm => hall dm (List.drop_subset _ _ hdm))

/-- C7: the upsert is idempotent — after one successful `add_documents`
call every identifier of the list (the supplied `doc_id`, or the
content+metadata hash when it is absent) is present in the store, so an
immediately repeated call with the identical list detects every
identifier, adds nothing, returns 0, and leaves the store exactly as the
first call left it. -/
theorem add_documents_idempotent (g : String → List (String × String) → String)
    (e : List String → Except Unit Unit) (store : List String) (docs : List Document)
    (hok : ∀ ts, e ts = Except.ok ()) :
    add_documents g e (add_documents g e store docs).1 docs =
      ((add_documents g e store docs).1, 0) := by
  unfold add_documents
  by_cases hd : docs.isEmpty = true
  · simp [hd]
  · simp only [hd, Bool.false_eq_true, if_false]
    exact add_batches_noop g e docs.length docs _
      (fun dm hdm => add_batches_mem g e hok docs.length docs store le_rfl dm hdm)

theorem add_documents_idempotent_witness :
    add_documents (fun c _ => c) embed_ok
        (add_documents (fun c _ => c) embed_ok [] [⟨"hello", [], ""⟩]).1
        [⟨"hello", [], ""⟩] =
      ((add_documents (fun c _ => c) embed_ok [] [⟨"hello", [], ""⟩]).1, 0) :=
  add_documents_idempotent (fun c _ => c) embed_ok [] [⟨"hello", [], ""⟩]
    (fun _ => rfl)

end MentalHealth
